import Mathlib

/-!
Verification of the burgtv-api M3U playlist validation pipeline.

This file shallowly embeds the playlist validators of the repository:

* `analyzeM3uContent` and `validateM3uUrlDetailed` from
  `src/app/api/cron/cleanup/route.ts`,
* `validateM3uUrl`, `formatMacAddress` and the MAC-address regex
  `macAddressSchema` from `src/lib/validation.ts`,

and proves the behavioural properties claimed by the specification.
JavaScript strings are embedded as `List Char`; the relevant library
operations (`trim`, `split`, `startsWith`, `includes`, `toUpperCase`,
`toLowerCase`, regex character classes) are embedded as executable Lean
functions on character lists.  Network effects are made explicit: each
probe's observed outcome (success with a response, or failure covering
network errors, aborts and timeouts) is an argument of the validator,
which is then a pure function of the observations.
-/

/-- JavaScript strings, embedded as lists of characters. -/
abbrev JStr := List Char

/-- Character list of a Lean string literal (for writing JS string literals). -/
def str (s : String) : JStr := s.data

/-- Embedding of JS `String.prototype.startsWith`. -/
def jsStartsWith (p s : JStr) : Bool := List.isPrefixOf p s

/-- Embedding of JS `String.prototype.includes` (substring containment). -/
def jsIncludes : JStr → JStr → Bool
  | needle, [] => List.isPrefixOf needle []
  | needle, c :: rest => List.isPrefixOf needle (c :: rest) || jsIncludes needle rest

/-- Embedding of JS `String.prototype.trim`: drop leading and trailing
whitespace (the source only ever trims ASCII text, where JS whitespace
coincides with `Char.isWhitespace`). -/
def jsTrim (s : JStr) : JStr :=
  ((s.dropWhile Char.isWhitespace).reverse.dropWhile Char.isWhitespace).reverse

/-- Embedding of JS `String.prototype.split` with a single-character
separator: the list of maximal separator-free segments (JS `split` keeps
empty segments; splitting the empty string gives one empty segment). -/
def splitOnChar (sep : Char) : JStr → List JStr
  | [] => [[]]
  | c :: rest =>
      if c = sep then [] :: splitOnChar sep rest
      else
        match splitOnChar sep rest with
        | [] => [[c]]
        | l :: ls => (c :: l) :: ls

/-- Embedding of JS `String.prototype.toLowerCase` (ASCII; the source only
lowercases URLs). -/
def jsLower (s : JStr) : JStr := s.map Char.toLower

/-- Embedding of JS `String.prototype.toUpperCase` (ASCII; the source only
uppercases MAC addresses). -/
def jsUpper (s : JStr) : JStr := s.map Char.toUpper

/-- Decimal rendering of a number, as in JS template interpolation
`HTTP ${status}`. -/
def natToJStr (n : Nat) : JStr := (Nat.repr n).data

/-- The result record of `analyzeM3uContent` / `validateM3uUrlDetailed`
(`M3UValidationResult` in `src/types/api`): optional fields model the
TypeScript optional properties, absent = `none`. -/
structure M3UValidationResult where
  isValid : Bool
  channelCount : Option Nat := none
  format : Option JStr := none
  error : Option JStr := none
deriving DecidableEq

/-- The result record of the basic validator `validateM3uUrl` in
`src/lib/validation.ts` (it has no `format` field). -/
structure BasicValidationResult where
  isValid : Bool
  channelCount : Option Nat := none
  error : Option JStr := none
deriving DecidableEq

/-- The observed outcome of one `fetch` call: either a settled response or
a failure (network error, DNS failure, or abort by the timeout timer). -/
inductive FetchOutcome (α : Type) where
  | success (response : α)
  | failure (message : JStr)
deriving DecidableEq

/-- The parts of a HEAD response the validators read: `response.ok`,
`response.status`, `response.statusText` and
`response.headers.get('content-type')` (which is `null` — here `none` —
when the header is absent). -/
structure HeadResponse where
  ok : Bool
  status : Nat
  statusText : JStr
  contentType : Option JStr
deriving DecidableEq

/-- The parts of the partial content GET response the validator reads:
`response.ok` and the decoded body text. -/
structure ContentResponse where
  ok : Bool
  body : JStr
deriving DecidableEq

/-- The non-empty trimmed lines of the fetched content:
`content.split('\n').map(line => line.trim()).filter(line => line.length > 0)`. -/
def m3uLines (content : JStr) : List JStr :=
  ((splitOnChar '\n' content).map jsTrim).filter (fun l => 0 < l.length)

/-- Predicate for channel metadata lines: `line.startsWith('#EXTINF:')`. -/
def isChannelLine (l : JStr) : Bool := jsStartsWith (str "#EXTINF:") l

/-- Predicate for resource URL lines:
`!line.startsWith('#') && (line.startsWith('http://') || line.startsWith('https://'))`. -/
def isUrlLine (l : JStr) : Bool :=
  !jsStartsWith (str "#") l &&
    (jsStartsWith (str "http://") l || jsStartsWith (str "https://") l)

/-- Predicate for extended-format marker lines: `line.includes('tvg-')`. -/
def hasTvg (l : JStr) : Bool := jsIncludes (str "tvg-") l

/-- Embedding of `analyzeM3uContent` (`src/app/api/cron/cleanup/route.ts`).
The source's emptiness guard `!content || content.trim().length === 0` is
`(jsTrim content).length = 0` (the first disjunct is subsumed: trimming the
empty string is empty); the remaining branches are transcribed in order. -/
def analyzeM3uContent (content : JStr) : M3UValidationResult :=
  if (jsTrim content).length = 0 then
    { isValid := false, error := some (str "Empty content") }
  else
    let lines := m3uLines content
    let firstLine := lines.headD []
    if jsStartsWith (str "#EXTM3U") firstLine = false then
      { isValid := false, error := some (str "Missing #EXTM3U header") }
    else
      let channelLines := lines.filter isChannelLine
      let urlLines := lines.filter isUrlLine
      if channelLines.length = 0 then
        { isValid := false, error := some (str "No channels found in playlist") }
      else if urlLines.length = 0 then
        { isValid := false, error := some (str "No valid URLs found in playlist") }
      else
        let format := if lines.any hasTvg = true then str "M3U Extended" else str "M3U"
        { isValid := true,
          channelCount := some (min channelLines.length urlLines.length),
          format := some format }

/-- The content-type allow-list `validContentTypes` of
`validateM3uUrlDetailed`. -/
def validContentTypes : List JStr :=
  [str "application/x-mpegurl",
   str "audio/x-mpegurl",
   str "text/plain",
   str "application/octet-stream"]

/-- The source's `hasValidContentType`:
`contentType && validContentTypes.some(type => contentType.includes(type))`.
A `null` header (here `none`) is falsy; an empty header value contains no
(non-empty) allow-list entry, so the substring test alone is faithful there. -/
def hasValidContentType (contentType : Option JStr) : Bool :=
  match contentType with
  | none => false
  | some ct => validContentTypes.any (fun t => jsIncludes t ct)

/-- The JS expression `contentType || 'unknown'` used for the fallback
`format`: `||` substitutes the default for both `null` and the empty
string (both falsy). -/
def jsOrUnknown (contentType : Option JStr) : JStr :=
  match contentType with
  | none => str "unknown"
  | some ct => if ct = [] then str "unknown" else ct

/-- Embedding of `validateM3uUrlDetailed` (`src/app/api/cron/cleanup/route.ts`)
as a pure function of the URL and the observed outcomes of the two probes.
The outer `try`/`catch` wraps only the HEAD probe path (the content probe has
its own inner `catch`), so `head = failure` is the outer catch; for the
content probe both a thrown failure and a non-`ok` response fall through to
the basic `{isValid: true, format: contentType || 'unknown'}` return. -/
def validateM3uUrlDetailed (url : JStr) (head : FetchOutcome HeadResponse)
    (content : FetchOutcome ContentResponse) : M3UValidationResult :=
  match head with
  | .failure message =>
      { isValid := false, error := some (str "Network error: " ++ message) }
  | .success h =>
      if h.ok = false then
        { isValid := false,
          error := some (str "HTTP " ++ natToJStr h.status ++ str ": " ++ h.statusText) }
      else if hasValidContentType h.contentType = false ∧
          jsIncludes (str ".m3u") (jsLower url) = false then
        { isValid := false,
          error := some (str "URL does not appear to be a valid M3U playlist") }
      else
        match content with
        | .success c =>
            if c.ok = true then
              let analysis := analyzeM3uContent c.body
              { isValid := analysis.isValid,
                channelCount := analysis.channelCount,
                format := analysis.format,
                error := analysis.error }
            else
              { isValid := true, format := some (jsOrUnknown h.contentType) }
        | .failure _ =>
            { isValid := true, format := some (jsOrUnknown h.contentType) }

/-- Whether `validateM3uUrlDetailed` reaches its content GET: in the source,
control enters the inner `try` (issuing the GET) exactly when the HEAD
outcome is a success, `headResponse.ok` holds, and the content-type/`.m3u`
gate does not return early. -/
def contentFetchAttempted (url : JStr) (head : FetchOutcome HeadResponse) : Bool :=
  match head with
  | .failure _ => false
  | .success h =>
      if h.ok = false then false
      else if hasValidContentType h.contentType = false ∧
          jsIncludes (str ".m3u") (jsLower url) = false then false
      else true

/-- Embedding of the basic validator `validateM3uUrl`
(`src/lib/validation.ts`): a single HEAD probe, then
`if (contentType && (contentType.includes('application/x-mpegurl') || ...
|| url.toLowerCase().includes('.m3u'))) return {isValid: true}`.
The JS guard `contentType && (...)` short-circuits on a falsy
content-type — both a `null` header (`none`) and a present-but-empty
header value (`some []`) — so the disjunction, including the `.m3u` URL
test, is evaluated only for a non-empty header; otherwise the invalid
verdict is returned. -/
def validateM3uUrl (url : JStr) (head : FetchOutcome HeadResponse) :
    BasicValidationResult :=
  match head with
  | .failure message =>
      { isValid := false, error := some (str "Network error: " ++ message) }
  | .success h =>
      if h.ok = false then
        { isValid := false,
          error := some (str "HTTP " ++ natToJStr h.status ++ str ": " ++ h.statusText) }
      else
        match h.contentType with
        | some ct =>
            if ct = [] then
              { isValid := false,
                error := some (str "URL does not appear to be a valid M3U playlist") }
            else if jsIncludes (str "application/x-mpegurl") ct
                || jsIncludes (str "audio/x-mpegurl") ct
                || jsIncludes (str "text/plain") ct
                || jsIncludes (str ".m3u") (jsLower url) then
              { isValid := true }
            else
              { isValid := false,
                error := some (str "URL does not appear to be a valid M3U playlist") }
        | none =>
            { isValid := false,
              error := some (str "URL does not appear to be a valid M3U playlist") }

/-! Request descriptors.  The fetch options of the two probes in
`validateM3uUrlDetailed` are compile-time constants; they are transcribed
here so the claimed timeout and range values can be checked. -/

/-- The options a probe is issued with: HTTP method, the `setTimeout`
delay (in milliseconds) of the `AbortController` that cancels it, and the
`Range` request header if one is sent. -/
structure FetchSpec where
  method : JStr
  timeoutMs : Nat
  rangeHeader : Option JStr
deriving DecidableEq

/-- The HEAD probe of `validateM3uUrlDetailed`:
`setTimeout(() => controller.abort(), 10000)`, `method: 'HEAD'`, no range. -/
def headProbeSpec : FetchSpec :=
  { method := str "HEAD", timeoutMs := 10000, rangeHeader := none }

/-- The content probe of `validateM3uUrlDetailed`:
`setTimeout(() => contentController.abort(), 15000)`, `method: 'GET'`,
`'Range': 'bytes=0-2048'`. -/
def contentProbeSpec : FetchSpec :=
  { method := str "GET", timeoutMs := 15000, rangeHeader := some (str "bytes=0-2048") }

/-- Decimal digit value of a character, `none` for non-digits. -/
def digitVal (c : Char) : Option Nat :=
  if '0' ≤ c ∧ c ≤ '9' then some (c.toNat - 48) else none

/-- Accumulating decimal parser over a character list. -/
def parseNatDigitsAux : JStr → Nat → Option Nat
  | [], acc => some acc
  | c :: rest, acc =>
      match digitVal c with
      | some d => parseNatDigitsAux rest (acc * 10 + d)
      | none => none

/-- Parse a non-empty all-digit character list as a decimal number. -/
def parseNatDigits (s : JStr) : Option Nat :=
  if s = [] then none else parseNatDigitsAux s 0

/-- Parse an HTTP range header value of the form `bytes=a-b` into its two
byte positions. -/
def parseByteRange (s : JStr) : Option (Nat × Nat) :=
  if List.isPrefixOf (str "bytes=") s then
    match splitOnChar '-' (s.drop 6) with
    | [a, b] =>
        match parseNatDigits a, parseNatDigits b with
        | some x, some y => some (x, y)
        | _, _ => none
    | _ => none
  else none

/-- Number of bytes denoted by an HTTP byte range `a-b`: per RFC 9110 both
the first-byte and last-byte positions are inclusive, so the span holds
`b - a + 1` bytes. -/
def inclusiveRangeLength (r : Nat × Nat) : Nat := r.2 - r.1 + 1

/-! MAC address handling (`src/lib/validation.ts`). -/

/-- The regex character class `[0-9A-Fa-f]` of `macAddressSchema`. -/
def hexDigitChars : List Char :=
  ['0', '1', '2', '3', '4', '5', '6', '7', '8', '9',
   'A', 'B', 'C', 'D', 'E', 'F', 'a', 'b', 'c', 'd', 'e', 'f']

/-- Membership in the class `[0-9A-Fa-f]`. -/
def isHexDigitChar (c : Char) : Bool := decide (c ∈ hexDigitChars)

/-- The regex character class `[:-]` (group separator) of `macAddressSchema`. -/
def isSepChar (c : Char) : Bool := decide (c = ':' ∨ c = '-')

/-- The regex character class `[A-F0-9]` kept by `formatMacAddress`'s
`replace(/[^A-F0-9]/g, '')`. -/
def upperHexChars : List Char :=
  ['A', 'B', 'C', 'D', 'E', 'F', '0', '1', '2', '3', '4', '5', '6', '7', '8', '9']

/-- Membership in the class `[A-F0-9]`. -/
def isUpperHexChar (c : Char) : Bool := decide (c ∈ upperHexChars)

/-- Matching of `(n+1)` two-hex-digit groups separated by `[:-]`: the regex
fragment `([0-9A-Fa-f]{2}[:-]){n}([0-9A-Fa-f]{2})` anchored on both sides. -/
def macGroups : Nat → JStr → Bool
  | 0, [a, b] => isHexDigitChar a && isHexDigitChar b
  | n + 1, a :: b :: s :: rest =>
      isHexDigitChar a && isHexDigitChar b && isSepChar s && macGroups n rest
  | _, _ => false

/-- Embedding of `isValidMacAddress`: full-string match of
`/^([0-9A-Fa-f]{2}[:-]){5}([0-9A-Fa-f]{2})$/` (the test performed by
`macAddressSchema.safeParse`). -/
def isValidMacAddress (mac : JStr) : Bool := macGroups 5 mac

/-- Embedding of `replace(/(.{2})/g, '$1:')` on a newline-free string: a
colon is appended after every complete pair of characters; a trailing
unpaired character is left as is. -/
def chunksOf2Colon : JStr → JStr
  | a :: b :: rest => a :: b :: ':' :: chunksOf2Colon rest
  | rest => rest

/-- The hex payload `mac.toUpperCase().replace(/[^A-F0-9]/g, '')` of
`formatMacAddress`. -/
def hexFilter (mac : JStr) : JStr := (jsUpper mac).filter isUpperHexChar

/-- Embedding of `formatMacAddress` (`src/lib/validation.ts`):
`mac.toUpperCase().replace(/[^A-F0-9]/g, '').replace(/(.{2})/g, '$1:').slice(0, -1)`
(`slice(0, -1)` drops the final character, i.e. the trailing colon). -/
def formatMacAddress (mac : JStr) : JStr :=
  (chunksOf2Colon (hexFilter mac)).dropLast

/-- The two-character groups of a separated MAC string, as the claim reads
them: take a pair, skip the following separator, repeat. -/
def macPairs : JStr → List JStr
  | a :: b :: _ :: rest => [a, b] :: macPairs rest
  | [a, b] => [[a, b]]
  | _ => []

/-- Joining character groups with `':'`, following the claim's words
"joined by ':'". -/
def joinColon : List JStr → JStr
  | [] => []
  | [p] => p
  | p :: rest => p ++ ':' :: joinColon rest

/-- The claim's normal form: the pairs of the MAC, uppercased. -/
def macPairsUpper (mac : JStr) : List JStr :=
  (macPairs mac).map (List.map Char.toUpper)

/-! Helper lemmas about the string primitives. -/

/-- Trimming yields the empty string exactly when every character is
whitespace. -/
theorem jsTrim_eq_nil_iff (s : JStr) :
    jsTrim s = [] ↔ ∀ c ∈ s, c.isWhitespace = true := by
  unfold jsTrim
  rw [List.reverse_eq_nil_iff, List.dropWhile_eq_nil_iff]
  constructor
  · intro h c hc
    have hsplit := List.takeWhile_append_dropWhile
      (p := Char.isWhitespace) (l := s)
    rw [← hsplit] at hc
    rcases List.mem_append.mp hc with h1 | h2
    · exact List.mem_takeWhile_imp h1
    · exact h c (List.mem_reverse.mpr h2)
  · intro h x hx
    exact h x ((List.dropWhile_sublist _).subset (List.mem_reverse.mp hx))

/-- Splitting never produces an empty list of segments. -/
theorem splitOnChar_ne_nil (sep : Char) (s : JStr) : splitOnChar sep s ≠ [] := by
  cases s with
  | nil => simp [splitOnChar]
  | cons c rest =>
      simp only [splitOnChar]
      split
      · simp
      · split <;> simp

/-- Every character of a segment of the split is a character of the split
string. -/
theorem mem_of_mem_splitOnChar (sep : Char) :
    ∀ (s seg : JStr), seg ∈ splitOnChar sep s → ∀ c ∈ seg, c ∈ s := by
  intro s
  induction s with
  | nil =>
      intro seg hseg c hc
      simp [splitOnChar] at hseg
      subst hseg
      simp at hc
  | cons x rest ih =>
      intro seg hseg c hc
      simp only [splitOnChar] at hseg
      by_cases hx : x = sep
      · rw [if_pos hx] at hseg
        rcases List.mem_cons.mp hseg with rfl | h
        · simp at hc
        · exact List.mem_cons_of_mem x (ih seg h c hc)
      · rw [if_neg hx] at hseg
        rcases hr : splitOnChar sep rest with _ | ⟨l, ls⟩
        · exact absurd hr (splitOnChar_ne_nil sep rest)
        · rw [hr] at hseg
          rcases List.mem_cons.mp hseg with rfl | h
          · rcases List.mem_cons.mp hc with rfl | h2
            · exact List.mem_cons_self _ _
            · exact List.mem_cons_of_mem x
                (ih l (by rw [hr]; exact List.mem_cons_self _ _) c h2)
          · exact List.mem_cons_of_mem x
              (ih seg (by rw [hr]; exact List.mem_cons_of_mem _ h) c hc)

/-- Every character of the split string is the separator or lies in some
segment of the split. -/
theorem splitOnChar_covers (sep : Char) :
    ∀ (s : JStr) (c : Char), c ∈ s →
      c = sep ∨ ∃ seg ∈ splitOnChar sep s, c ∈ seg := by
  intro s
  induction s with
  | nil => intro c hc; simp at hc
  | cons x rest ih =>
      intro c hc
      simp only [splitOnChar]
      by_cases hx : x = sep
      · rw [if_pos hx]
        rcases List.mem_cons.mp hc with rfl | h
        · exact Or.inl hx
        · rcases ih c h with h1 | ⟨seg, hseg, hcseg⟩
          · exact Or.inl h1
          · exact Or.inr ⟨seg, List.mem_cons_of_mem _ hseg, hcseg⟩
      · rw [if_neg hx]
        rcases hr : splitOnChar sep rest with _ | ⟨l, ls⟩
        · exact absurd hr (splitOnChar_ne_nil sep rest)
        · rcases List.mem_cons.mp hc with rfl | h
          · exact Or.inr ⟨c :: l, List.mem_cons_self _ _, List.mem_cons_self _ _⟩
          · rcases ih c h with h1 | ⟨seg, hseg, hcseg⟩
            · exact Or.inl h1
            · rw [hr] at hseg
              rcases List.mem_cons.mp hseg with rfl | htl
              · exact Or.inr ⟨x :: seg, List.mem_cons_self _ _,
                  List.mem_cons_of_mem _ hcseg⟩
              · exact Or.inr ⟨seg, List.mem_cons_of_mem _ htl, hcseg⟩

/-- The filtered line list is empty exactly when the whole content trims to
nothing — the classifier's emptiness guard and "zero non-empty trimmed
lines" coincide. -/
theorem m3uLines_eq_nil_iff (content : JStr) :
    m3uLines content = [] ↔ (jsTrim content).length = 0 := by
  rw [List.length_eq_zero, jsTrim_eq_nil_iff]
  unfold m3uLines
  rw [List.filter_eq_nil_iff]
  constructor
  · intro h c hc
    rcases splitOnChar_covers '\n' content c hc with rfl | ⟨seg, hseg, hcseg⟩
    · decide
    · have h2 := h (jsTrim seg) (List.mem_map_of_mem jsTrim hseg)
      simp only [decide_eq_true_eq, Nat.not_lt, Nat.le_zero, List.length_eq_zero] at h2
      exact (jsTrim_eq_nil_iff seg).mp h2 c hcseg
  · intro h l hl
    rcases List.mem_map.mp hl with ⟨seg, hseg, rfl⟩
    have hnil : jsTrim seg = [] :=
      (jsTrim_eq_nil_iff seg).mpr
        (fun c hc => h c (mem_of_mem_splitOnChar '\n' content seg hseg c hc))
    simp [hnil]

/-! Claim theorems. -/

/-- C1: whenever the fetched content passes the header checks (non-empty,
first trimmed line starts with `#EXTM3U`) and has at least one `#EXTINF:`
line and at least one non-`#` line starting with `http://` or `https://`,
the classifier returns `isValid = true` with `channelCount` the minimum of
the two line counts and `format` `"M3U Extended"` exactly when some line
contains `tvg-`, else `"M3U"`. -/
theorem analyze_success_classification (content : JStr)
    (hne : (jsTrim content).length ≠ 0)
    (hhdr : jsStartsWith (str "#EXTM3U") ((m3uLines content).headD []) = true)
    (hch : 0 < ((m3uLines content).filter isChannelLine).length)
    (hurl : 0 < ((m3uLines content).filter isUrlLine).length) :
    analyzeM3uContent content =
      { isValid := true,
        channelCount := some (min ((m3uLines content).filter isChannelLine).length
          ((m3uLines content).filter isUrlLine).length),
        format := some (if (m3uLines content).any hasTvg = true
          then str "M3U Extended" else str "M3U"),
        error := none } := by
  simp only [analyzeM3uContent]
  rw [if_neg hne, if_neg (by simp only [hhdr]; decide),
    if_neg (Nat.pos_iff_ne_zero.mp hch), if_neg (Nat.pos_iff_ne_zero.mp hurl)]

/-- Witness for C1: the specification's own example playlist classifies as
valid with two channels and plain `M3U` format. -/
theorem analyze_success_classification_witness :
    analyzeM3uContent
        (str "#EXTM3U\n#EXTINF:-1,Channel1\nhttp://x/1\n#EXTINF:-1,Channel2\nhttp://x/2\n") =
      { isValid := true, channelCount := some 2, format := some (str "M3U"),
        error := none } := by
  have h := analyze_success_classification
    (str "#EXTM3U\n#EXTINF:-1,Channel1\nhttp://x/1\n#EXTINF:-1,Channel2\nhttp://x/2\n")
    (by decide) (by decide) (by decide) (by decide)
  rw [h]
  decide

/-- C4: the classifier applies its failure checks in order, returning the
first applicable error: no non-empty trimmed lines yields `Empty content`;
otherwise a first line not starting with `#EXTM3U` yields
`Missing #EXTM3U header`; otherwise zero `#EXTINF:` lines yields
`No channels found in playlist`; otherwise zero resource-URL lines yields
`No valid URLs found in playlist`. -/
theorem analyze_failure_order (content : JStr) :
    (m3uLines content = [] →
      analyzeM3uContent content =
        { isValid := false, error := some (str "Empty content") }) ∧
    (m3uLines content ≠ [] →
      jsStartsWith (str "#EXTM3U") ((m3uLines content).headD []) = false →
      analyzeM3uContent content =
        { isValid := false, error := some (str "Missing #EXTM3U header") }) ∧
    (m3uLines content ≠ [] →
      jsStartsWith (str "#EXTM3U") ((m3uLines content).headD []) = true →
      ((m3uLines content).filter isChannelLine).length = 0 →
      analyzeM3uContent content =
        { isValid := false, error := some (str "No channels found in playlist") }) ∧
    (m3uLines content ≠ [] →
      jsStartsWith (str "#EXTM3U") ((m3uLines content).headD []) = true →
      ((m3uLines content).filter isChannelLine).length ≠ 0 →
      ((m3uLines content).filter isUrlLine).length = 0 →
      analyzeM3uContent content =
        { isValid := false, error := some (str "No valid URLs found in playlist") }) := by
  refine ⟨fun h0 => ?_, fun h0 h1 => ?_, fun h0 h1 h2 => ?_, fun h0 h1 h2 h3 => ?_⟩
  · simp only [analyzeM3uContent]
    rw [if_pos ((m3uLines_eq_nil_iff content).mp h0)]
  · have hne : (jsTrim content).length ≠ 0 :=
      fun h => h0 ((m3uLines_eq_nil_iff content).mpr h)
    simp only [analyzeM3uContent]
    rw [if_neg hne, if_pos h1]
  · have hne : (jsTrim content).length ≠ 0 :=
      fun h => h0 ((m3uLines_eq_nil_iff content).mpr h)
    simp only [analyzeM3uContent]
    rw [if_neg hne, if_neg (by simp only [h1]; decide), if_pos h2]
  · have hne : (jsTrim content).length ≠ 0 :=
      fun h => h0 ((m3uLines_eq_nil_iff content).mpr h)
    simp only [analyzeM3uContent]
    rw [if_neg hne, if_neg (by simp only [h1]; decide), if_neg h2, if_pos h3]

/-- Witness for C4: concrete contents triggering each of the four failure
errors in turn. -/
theorem analyze_failure_order_witness :
    analyzeM3uContent (str "  \n ") =
      { isValid := false, error := some (str "Empty content") } ∧
    analyzeM3uContent (str "not a playlist") =
      { isValid := false, error := some (str "Missing #EXTM3U header") } ∧
    analyzeM3uContent (str "#EXTM3U\n") =
      { isValid := false, error := some (str "No channels found in playlist") } ∧
    analyzeM3uContent (str "#EXTM3U\n#EXTINF:-1,ChannelA") =
      { isValid := false, error := some (str "No valid URLs found in playlist") } :=
  ⟨(analyze_failure_order (str "  \n ")).1 (by decide),
   (analyze_failure_order (str "not a playlist")).2.1 (by decide) (by decide),
   (analyze_failure_order (str "#EXTM3U\n")).2.2.1 (by decide) (by decide) (by decide),
   (analyze_failure_order (str "#EXTM3U\n#EXTINF:-1,ChannelA")).2.2.2
     (by decide) (by decide) (by decide) (by decide)⟩

/-- C5: a HEAD probe that settles with a non-success status makes the
detailed validator return `isValid = false` with error
`HTTP <status>: <status text>` at once, and the content GET is never
attempted. -/
theorem head_http_error_fatal (url : JStr) (h : HeadResponse)
    (content : FetchOutcome ContentResponse) (hok : h.ok = false) :
    validateM3uUrlDetailed url (.success h) content =
      { isValid := false,
        error := some (str "HTTP " ++ natToJStr h.status ++ str ": " ++ h.statusText) } ∧
    contentFetchAttempted url (.success h) = false := by
  constructor
  · simp only [validateM3uUrlDetailed]
    rw [if_pos hok]
  · simp only [contentFetchAttempted]
    rw [if_pos hok]

/-- Witness for C5: a 404 HEAD response yields the invalid verdict with an
error string containing `404`. -/
theorem head_http_error_fatal_witness :
    validateM3uUrlDetailed (str "http://example.com/list.m3u")
        (.success
          { ok := false, status := 404, statusText := str "Not Found",
            contentType := none })
        (.failure (str "unreached")) =
      { isValid := false, error := some (str "HTTP 404: Not Found") } ∧
    jsIncludes (str "404") (str "HTTP 404: Not Found") = true := by
  have h := head_http_error_fatal (str "http://example.com/list.m3u")
    { ok := false, status := 404, statusText := str "Not Found", contentType := none }
    (.failure (str "unreached")) (by decide)
  exact ⟨by rw [h.1]; decide, by decide⟩

/-- C2: when the HEAD probe succeeds but neither the content-type matches
the allow-list nor the lowercased URL contains `.m3u`, the detailed
validator rejects with the playlist-mismatch error and never issues the
content GET (the verdict is the same for every content outcome). -/
theorem gate_rejection_no_fetch (url : JStr) (h : HeadResponse)
    (content : FetchOutcome ContentResponse)
    (hok : h.ok = true)
    (hct : hasValidContentType h.contentType = false)
    (hurl : jsIncludes (str ".m3u") (jsLower url) = false) :
    validateM3uUrlDetailed url (.success h) content =
      { isValid := false,
        error := some (str "URL does not appear to be a valid M3U playlist") } ∧
    contentFetchAttempted url (.success h) = false := by
  constructor
  · simp only [validateM3uUrlDetailed]
    rw [if_neg (by simp [hok]), if_pos ⟨hct, hurl⟩]
  · simp only [contentFetchAttempted]
    rw [if_neg (by simp [hok]), if_pos ⟨hct, hurl⟩]

/-- Witness for C2: an HTML page at a URL without `.m3u` is rejected
before the content GET. -/
theorem gate_rejection_no_fetch_witness :
    validateM3uUrlDetailed (str "http://example.com/page")
        (.success
          { ok := true, status := 200, statusText := str "OK",
            contentType := some (str "text/html") })
        (.failure (str "unreached")) =
      { isValid := false,
        error := some (str "URL does not appear to be a valid M3U playlist") } ∧
    contentFetchAttempted (str "http://example.com/page")
      (.success
        { ok := true, status := 200, statusText := str "OK",
          contentType := some (str "text/html") }) = false :=
  gate_rejection_no_fetch (str "http://example.com/page")
    { ok := true, status := 200, statusText := str "OK",
      contentType := some (str "text/html") }
    (.failure (str "unreached")) (by decide) (by decide) (by decide)

/-- C3 counterexample: the claim as stated says the fallback `format`
equals the HEAD content-type whenever the header is present ("unknown"
only when absent).  With a present-but-empty content-type header and a
URL passing the `.m3u` gate, a failed content GET yields
`format = "unknown"` although the received content-type is the (distinct)
empty string — the JS fallback `contentType || 'unknown'` treats the empty
string like an absent header. -/
theorem content_fetch_fallback_format_cex :
    (validateM3uUrlDetailed (str "http://host/stream.m3u")
        (.success
          { ok := true, status := 200, statusText := str "OK",
            contentType := some [] })
        (.failure (str "timeout"))).format = some (str "unknown") ∧
    (([] : JStr) ≠ str "unknown") := by
  exact ⟨by decide, by decide⟩

/-- C3 (amended): if the HEAD probe succeeds and the content-type/`.m3u`
gate passes, a content GET that fails, is aborted, or settles with a
non-success status still yields `isValid = true`, no `channelCount`, no
`error`, and `format` equal to the HEAD content-type with `"unknown"`
substituted when the header is absent or empty; a HEAD failure, by
contrast, is always fatal. -/
theorem content_fetch_failure_tolerated (url : JStr) (h : HeadResponse)
    (content : FetchOutcome ContentResponse)
    (hok : h.ok = true)
    (hgate : ¬(hasValidContentType h.contentType = false ∧
      jsIncludes (str ".m3u") (jsLower url) = false))
    (hfail : (∃ m, content = .failure m) ∨ ∃ c, content = .success c ∧ c.ok = false) :
    validateM3uUrlDetailed url (.success h) content =
      { isValid := true, format := some (jsOrUnknown h.contentType) } ∧
    ∀ m c2, (validateM3uUrlDetailed url (.failure m) c2).isValid = false := by
  constructor
  · rcases hfail with ⟨m, rfl⟩ | ⟨c, rfl, hcok⟩
    · simp only [validateM3uUrlDetailed]
      rw [if_neg (by simp [hok]), if_neg hgate]
    · simp only [validateM3uUrlDetailed]
      rw [if_neg (by simp [hok]), if_neg hgate, if_neg (by simp [hcok])]
  · intro m c2
    rfl

/-- Witness for C3: HEAD succeeds with `text/plain`, the content GET is
aborted, and the verdict is valid with the HEAD-derived format. -/
theorem content_fetch_failure_tolerated_witness :
    validateM3uUrlDetailed (str "http://host/tv")
        (.success
          { ok := true, status := 200, statusText := str "OK",
            contentType := some (str "text/plain") })
        (.failure (str "aborted")) =
      { isValid := true, format := some (str "text/plain") } := by
  have h := content_fetch_failure_tolerated (str "http://host/tv")
    { ok := true, status := 200, statusText := str "OK",
      contentType := some (str "text/plain") }
    (.failure (str "aborted")) (by decide) (by decide)
    (Or.inl ⟨str "aborted", rfl⟩)
  rw [h.1]
  decide

/-- Every classifier verdict satisfies the validity/error exclusivity
invariant. -/
theorem analyzeM3uContent_inv (body : JStr) :
    (analyzeM3uContent body).isValid = true ↔
      (analyzeM3uContent body).error = none := by
  simp only [analyzeM3uContent]
  split
  · simp
  · split
    · simp
    · split
      · simp
      · split <;> simp

/-- Every detailed-validator verdict satisfies the validity/error
exclusivity invariant. -/
theorem validateM3uUrlDetailed_inv (url : JStr) (head : FetchOutcome HeadResponse)
    (content : FetchOutcome ContentResponse) :
    (validateM3uUrlDetailed url head content).isValid = true ↔
      (validateM3uUrlDetailed url head content).error = none := by
  cases head with
  | failure m => simp [validateM3uUrlDetailed]
  | success h =>
      simp only [validateM3uUrlDetailed]
      split
      · simp
      · split
        · simp
        · cases content with
          | success c =>
              cases c with
              | mk cok cbody =>
                  cases cok
                  · simp
                  · simpa using analyzeM3uContent_inv cbody
          | failure m => simp

/-- Every basic-validator verdict satisfies the validity/error exclusivity
invariant. -/
theorem validateM3uUrl_inv (url : JStr) (head : FetchOutcome HeadResponse) :
    (validateM3uUrl url head).isValid = true ↔
      (validateM3uUrl url head).error = none := by
  cases head with
  | failure m => simp [validateM3uUrl]
  | success h =>
      simp only [validateM3uUrl]
      split
      · simp
      · split
        · split
          · simp
          · split <;> simp
        · simp

/-- C6: on every path of both validator implementations and of the content
classifier, exactly one of `isValid = true` and "`error` is present"
holds: the error field is `none` precisely on valid verdicts. -/
theorem verdict_error_exclusivity (url : JStr) (head : FetchOutcome HeadResponse)
    (content : FetchOutcome ContentResponse) (body : JStr) :
    ((validateM3uUrlDetailed url head content).isValid = true ↔
      (validateM3uUrlDetailed url head content).error = none) ∧
    ((validateM3uUrl url head).isValid = true ↔
      (validateM3uUrl url head).error = none) ∧
    ((analyzeM3uContent body).isValid = true ↔
      (analyzeM3uContent body).error = none) :=
  ⟨validateM3uUrlDetailed_inv url head content,
   validateM3uUrl_inv url head,
   analyzeM3uContent_inv body⟩

/-- C7: the detailed validator is a pure function of its observed inputs —
two calls observing the same URL, the same HEAD outcome and the same
content-GET outcome return identical verdicts; its embedding type (a
function with no state parameter) reflects that the source reads and
writes no state surviving a call. -/
theorem validate_deterministic (url₁ url₂ : JStr)
    (head₁ head₂ : FetchOutcome HeadResponse)
    (content₁ content₂ : FetchOutcome ContentResponse)
    (hu : url₁ = url₂) (hh : head₁ = head₂) (hc : content₁ = content₂) :
    validateM3uUrlDetailed url₁ head₁ content₁ =
      validateM3uUrlDetailed url₂ head₂ content₂ := by
  subst hu
  subst hh
  subst hc
  rfl

/-- Witness for C7: two identical observations of a concrete URL produce
the same verdict. -/
theorem validate_deterministic_witness :
    validateM3uUrlDetailed (str "http://x/a.m3u")
        (.success { ok := true, status := 200, statusText := str "OK", contentType := none })
        (.failure (str "timeout")) =
      validateM3uUrlDetailed (str "http://x/a.m3u")
        (.success { ok := true, status := 200, statusText := str "OK", contentType := none })
        (.failure (str "timeout")) :=
  validate_deterministic (str "http://x/a.m3u") (str "http://x/a.m3u")
    (.success { ok := true, status := 200, statusText := str "OK", contentType := none })
    (.success { ok := true, status := 200, statusText := str "OK", contentType := none })
    (.failure (str "timeout")) (.failure (str "timeout")) rfl rfl rfl

/-- C9: the basic validator `validateM3uUrl` returns `isValid = false`
whenever the successful HEAD response carries no content-type header, even
for URLs containing `.m3u` (its URL check sits inside the conjunction
guarded by the content-type's truthiness, so it is evaluated only for a
present non-empty header — a present-but-empty header is likewise falsy
and rejected); moreover its allow-list omits `application/octet-stream`,
so that content-type is also rejected when the URL lacks `.m3u`. -/
theorem basic_validator_content_type_gate (url : JStr) (h : HeadResponse)
    (hok : h.ok = true) :
    (h.contentType = none →
      validateM3uUrl url (.success h) =
        { isValid := false,
          error := some (str "URL does not appear to be a valid M3U playlist") }) ∧
    (h.contentType = some [] →
      validateM3uUrl url (.success h) =
        { isValid := false,
          error := some (str "URL does not appear to be a valid M3U playlist") }) ∧
    (h.contentType = some (str "application/octet-stream") →
      jsIncludes (str ".m3u") (jsLower url) = false →
      validateM3uUrl url (.success h) =
        { isValid := false,
          error := some (str "URL does not appear to be a valid M3U playlist") }) := by
  refine ⟨fun hct => ?_, fun hct => ?_, fun hct hurl => ?_⟩
  · simp only [validateM3uUrl]
    rw [if_neg (by simp [hok]), hct]
  · simp only [validateM3uUrl]
    rw [if_neg (by simp [hok]), hct]
    rfl
  · simp only [validateM3uUrl]
    rw [if_neg (by simp [hok]), hct]
    simp only [hurl]
    rw [if_neg (by decide), if_neg (by decide)]

/-- Witness for C9: a missing content-type header defeats even a `.m3u`
URL, so does a present-but-empty one, and `application/octet-stream` is
rejected without `.m3u` in the URL. -/
theorem basic_validator_content_type_gate_witness :
    validateM3uUrl (str "http://x/playlist.m3u")
        (.success { ok := true, status := 200, statusText := str "OK", contentType := none }) =
      { isValid := false,
        error := some (str "URL does not appear to be a valid M3U playlist") } ∧
    validateM3uUrl (str "http://x/playlist.m3u")
        (.success
          { ok := true, status := 200, statusText := str "OK",
            contentType := some [] }) =
      { isValid := false,
        error := some (str "URL does not appear to be a valid M3U playlist") } ∧
    validateM3uUrl (str "http://x/get.php")
        (.success
          { ok := true, status := 200, statusText := str "OK",
            contentType := some (str "application/octet-stream") }) =
      { isValid := false,
        error := some (str "URL does not appear to be a valid M3U playlist") } :=
  ⟨(basic_validator_content_type_gate (str "http://x/playlist.m3u")
      { ok := true, status := 200, statusText := str "OK", contentType := none }
      (by decide)).1 rfl,
   (basic_validator_content_type_gate (str "http://x/playlist.m3u")
      { ok := true, status := 200, statusText := str "OK", contentType := some [] }
      (by decide)).2.1 rfl,
   (basic_validator_content_type_gate (str "http://x/get.php")
      { ok := true, status := 200, statusText := str "OK",
        contentType := some (str "application/octet-stream") }
      (by decide)).2.2 rfl (by decide)⟩

/-- C8 counterexample: the claim says the content probe asks for "just the
first 2048 bytes", but the header sent is `bytes=0-2048`, and an HTTP byte
range is inclusive at both ends (RFC 9110), so the request asks for 2049
bytes (positions 0 through 2048). -/
theorem probe_range_cex :
    contentProbeSpec.rangeHeader = some (str "bytes=0-2048") ∧
    parseByteRange (str "bytes=0-2048") = some (0, 2048) ∧
    inclusiveRangeLength (0, 2048) = 2049 ∧ (2049 : Nat) ≠ 2048 := by
  refine ⟨by decide, by decide, by decide, by decide⟩

/-- C8 (amended): the HEAD probe is bounded by a 10-second (10000 ms)
cancellation timer; the content probe is a GET bounded by a 15-second
(15000 ms) cancellation timer and carries the byte-range header
`bytes=0-2048`, requesting the first 2049 bytes of the resource (the
inclusive range from byte 0 through byte 2048). -/
theorem probe_bounds_and_range :
    headProbeSpec.method = str "HEAD" ∧
    headProbeSpec.timeoutMs = 10 * 1000 ∧
    headProbeSpec.rangeHeader = none ∧
    contentProbeSpec.method = str "GET" ∧
    contentProbeSpec.timeoutMs = 15 * 1000 ∧
    contentProbeSpec.rangeHeader = some (str "bytes=0-2048") ∧
    (contentProbeSpec.rangeHeader.bind parseByteRange).map inclusiveRangeLength =
      some 2049 := by
  refine ⟨by decide, by decide, by decide, by decide, by decide, by decide, by decide⟩

/-! Helper lemmas for the MAC-address claim. -/

/-- Uppercasing a `[0-9A-Fa-f]` character yields a character that is again
in `[0-9A-Fa-f]`, lies in `[A-F0-9]`, and is a fixed point of uppercasing. -/
theorem hexUpper_facts (c : Char) (hc : isHexDigitChar c = true) :
    isHexDigitChar (Char.toUpper c) = true ∧
      isUpperHexChar (Char.toUpper c) = true ∧
      Char.toUpper (Char.toUpper c) = Char.toUpper c := by
  have hm : c ∈ hexDigitChars := of_decide_eq_true hc
  fin_cases hm <;> exact ⟨by decide, by decide, by decide⟩

/-- Uppercasing a separator (`:` or `-`) never lands in `[A-F0-9]`. -/
theorem sep_toUpper_not_hex (s : Char) (hs : isSepChar s = true) :
    isUpperHexChar (Char.toUpper s) = false := by
  rcases of_decide_eq_true hs with rfl | rfl <;> decide

/-- The uppercase-and-keep-hex pipeline keeps an uppercased hex digit. -/
theorem hexFilter_cons_hex (a : Char) (rest : JStr) (ha : isHexDigitChar a = true) :
    hexFilter (a :: rest) = Char.toUpper a :: hexFilter rest := by
  simp [hexFilter, jsUpper, List.filter_cons, (hexUpper_facts a ha).2.1]

/-- The uppercase-and-keep-hex pipeline drops a separator. -/
theorem hexFilter_cons_sep (s : Char) (rest : JStr) (hs : isSepChar s = true) :
    hexFilter (s :: rest) = hexFilter rest := by
  simp [hexFilter, jsUpper, List.filter_cons, sep_toUpper_not_hex s hs]

/-- Structure of a string matching `n + 1` MAC groups: its pairs are `n + 1`
two-hex-digit groups, and running the `formatMacAddress` pipeline on it up
to the final `slice` produces the uppercased pairs joined by `':'`, plus a
trailing colon. -/
theorem macGroups_core : ∀ n m, macGroups n m = true →
    macPairs m ≠ [] ∧ (macPairs m).length = n + 1 ∧
    (∀ p ∈ macPairs m, p.length = 2 ∧ ∀ c ∈ p, isHexDigitChar c = true) ∧
    chunksOf2Colon (hexFilter m) = joinColon (macPairsUpper m) ++ [':'] := by
  intro n
  induction n with
  | zero =>
      intro m hm
      rcases m with _ | ⟨a, _ | ⟨b, _ | ⟨s, rest⟩⟩⟩ <;> simp [macGroups] at hm
      obtain ⟨ha, hb⟩ := hm
      refine ⟨by simp [macPairs], by simp [macPairs], ?_, ?_⟩
      · intro p hp
        simp only [macPairs, List.mem_singleton] at hp
        subst hp
        refine ⟨rfl, ?_⟩
        intro c hc
        rcases List.mem_cons.mp hc with rfl | hc2
        · exact ha
        · simp only [List.mem_singleton] at hc2
          subst hc2
          exact hb
      · rw [hexFilter_cons_hex a _ ha, hexFilter_cons_hex b _ hb]
        simp [macPairs, macPairsUpper, joinColon, chunksOf2Colon, hexFilter]
  | succ n ih =>
      intro m hm
      rcases m with _ | ⟨a, _ | ⟨b, _ | ⟨s, rest⟩⟩⟩ <;> simp [macGroups] at hm
      obtain ⟨⟨⟨ha, hb⟩, hs⟩, hrest⟩ := hm
      obtain ⟨ihne, ihlen, ihpairs, ihchunks⟩ := ih rest hrest
      have hpairs_eq : macPairs (a :: b :: s :: rest) = [a, b] :: macPairs rest := rfl
      have hmu : macPairsUpper (a :: b :: s :: rest) =
          [Char.toUpper a, Char.toUpper b] :: macPairsUpper rest := by
        simp [macPairsUpper, hpairs_eq]
      refine ⟨by simp [hpairs_eq], by simp [hpairs_eq, ihlen], ?_, ?_⟩
      · intro p hp
        rw [hpairs_eq] at hp
        rcases List.mem_cons.mp hp with rfl | hp2
        · refine ⟨rfl, ?_⟩
          intro c hc
          rcases List.mem_cons.mp hc with rfl | hc2
          · exact ha
          · simp only [List.mem_singleton] at hc2
            subst hc2
            exact hb
        · exact ihpairs p hp2
      · rw [hexFilter_cons_hex a _ ha, hexFilter_cons_hex b _ hb,
          hexFilter_cons_sep s _ hs]
        have hstep : chunksOf2Colon (Char.toUpper a :: Char.toUpper b :: hexFilter rest) =
            Char.toUpper a :: Char.toUpper b :: ':' :: chunksOf2Colon (hexFilter rest) := rfl
        rw [hstep, ihchunks, hmu]
        rcases hq : macPairsUpper rest with _ | ⟨q, ql⟩
        · exact absurd (by simpa [macPairsUpper] using hq) ihne
        · have hjc : joinColon ([Char.toUpper a, Char.toUpper b] :: q :: ql) =
              [Char.toUpper a, Char.toUpper b] ++ ':' :: joinColon (q :: ql) := rfl
          rw [hjc]
          simp

/-- Joining `n + 1` two-hex-digit groups with `':'` yields a string matching
`n + 1` MAC groups. -/
theorem joinColon_valid : ∀ n (ps : List JStr), ps.length = n + 1 →
    (∀ p ∈ ps, p.length = 2 ∧ ∀ c ∈ p, isHexDigitChar c = true) →
    macGroups n (joinColon ps) = true := by
  intro n
  induction n with
  | zero =>
      intro ps hlen hps
      rcases ps with _ | ⟨p, _ | ⟨q, l⟩⟩ <;> simp at hlen
      obtain ⟨hp2, hphex⟩ := hps p (List.mem_singleton_self p)
      rcases p with _ | ⟨x, _ | ⟨y, _ | ⟨z, t⟩⟩⟩ <;> simp at hp2
      simp [joinColon, macGroups, hphex x (by simp), hphex y (by simp)]
  | succ n ih =>
      intro ps hlen hps
      rcases ps with _ | ⟨p, _ | ⟨q, l⟩⟩ <;> simp at hlen
      obtain ⟨hp2, hphex⟩ := hps p (List.mem_cons_self p _)
      rcases p with _ | ⟨x, _ | ⟨y, _ | ⟨z, t⟩⟩⟩ <;> simp at hp2
      have hjc : joinColon ([x, y] :: q :: l) = [x, y] ++ ':' :: joinColon (q :: l) := rfl
      rw [hjc]
      have hrec : macGroups n (joinColon (q :: l)) = true :=
        ih (q :: l) (by simpa using hlen) (fun p hp => hps p (List.mem_cons_of_mem _ hp))
      simp [macGroups, hphex x (by simp), hphex y (by simp), hrec, isSepChar]

/-- Reading pairs back out of a colon-joined list of two-character groups
recovers the groups. -/
theorem macPairs_joinColon : ∀ ps : List JStr, ps ≠ [] →
    (∀ p ∈ ps, p.length = 2) → macPairs (joinColon ps) = ps := by
  intro ps
  induction ps with
  | nil => intro h _; exact absurd rfl h
  | cons p ps' ih =>
      intro _ hps
      cases ps' with
      | nil =>
          have hp2 := hps p (List.mem_singleton_self p)
          rcases p with _ | ⟨x, _ | ⟨y, _ | ⟨z, t⟩⟩⟩ <;> simp at hp2
          rfl
      | cons q l =>
          have hp2 := hps p (List.mem_cons_self p _)
          rcases p with _ | ⟨x, _ | ⟨y, _ | ⟨z, t⟩⟩⟩ <;> simp at hp2
          have hjc : joinColon ([x, y] :: q :: l) = [x, y] ++ ':' :: joinColon (q :: l) := rfl
          rw [hjc]
          have hmp : macPairs (x :: y :: ':' :: joinColon (q :: l)) =
              [x, y] :: macPairs (joinColon (q :: l)) := rfl
          rw [List.cons_append, List.cons_append, List.nil_append, hmp,
            ih (by simp) (fun p hp => hps p (List.mem_cons_of_mem _ hp))]

/-- On a valid MAC string, `formatMacAddress` is exactly the uppercased
pairs joined by `':'`. -/
theorem formatMacAddress_eq_joinColon (m : JStr) (hm : macGroups 5 m = true) :
    formatMacAddress m = joinColon (macPairsUpper m) := by
  obtain ⟨-, -, -, hchunks⟩ := macGroups_core 5 m hm
  unfold formatMacAddress
  rw [hchunks]
  simp

/-- C10: for every string accepted by `isValidMacAddress` (six pairs of hex
digits separated by `:` or `-`), `formatMacAddress` returns exactly the
same six pairs uppercased and joined by `':'`, the result is again a valid
MAC address, and formatting is idempotent on it. -/
theorem mac_normalization (mac : JStr) (hv : isValidMacAddress mac = true) :
    formatMacAddress mac = joinColon (macPairsUpper mac) ∧
    (macPairs mac).length = 6 ∧
    isValidMacAddress (formatMacAddress mac) = true ∧
    formatMacAddress (formatMacAddress mac) = formatMacAddress mac := by
  obtain ⟨hne, hlen, hpairs, hchunks⟩ := macGroups_core 5 mac hv
  have hupper_pairs : ∀ p ∈ macPairsUpper mac,
      p.length = 2 ∧ ∀ c ∈ p, isHexDigitChar c = true := by
    intro p hp
    rcases List.mem_map.mp hp with ⟨p0, hp0, rfl⟩
    obtain ⟨hl2, hhex⟩ := hpairs p0 hp0
    refine ⟨by simp [hl2], ?_⟩
    intro c hc
    rcases List.mem_map.mp hc with ⟨c0, hc0, rfl⟩
    exact (hexUpper_facts c0 (hhex c0 hc0)).1
  have hformat : formatMacAddress mac = joinColon (macPairsUpper mac) :=
    formatMacAddress_eq_joinColon mac hv
  have hulen : (macPairsUpper mac).length = 6 := by simp [macPairsUpper, hlen]
  have hvalid2 : isValidMacAddress (formatMacAddress mac) = true := by
    rw [hformat]
    exact joinColon_valid 5 (macPairsUpper mac) hulen hupper_pairs
  refine ⟨hformat, hlen, hvalid2, ?_⟩
  have hune : macPairsUpper mac ≠ [] := by
    intro h
    rw [h] at hulen
    simp at hulen
  have hmp : macPairs (formatMacAddress mac) = macPairsUpper mac := by
    rw [hformat]
    exact macPairs_joinColon (macPairsUpper mac) hune
      (fun p hp => (hupper_pairs p hp).1)
  have hfix : ∀ p ∈ macPairsUpper mac, List.map Char.toUpper p = p := by
    intro p hp
    rcases List.mem_map.mp hp with ⟨p0, hp0, rfl⟩
    rw [List.map_map]
    refine List.map_congr_left ?_
    intro c hc
    exact (hexUpper_facts c ((hpairs p0 hp0).2 c hc)).2.2
  have hmpu : macPairsUpper (formatMacAddress mac) = macPairsUpper mac := by
    unfold macPairsUpper
    rw [hmp]
    calc (macPairsUpper mac).map (List.map Char.toUpper)
        = (macPairsUpper mac).map id := List.map_congr_left hfix
      _ = macPairsUpper mac := List.map_id _
  rw [formatMacAddress_eq_joinColon (formatMacAddress mac) hvalid2, hmpu, ← hformat]

/-- Witness for C10: a concrete lowercase, dash-separated MAC address
normalizes to the expected uppercase colon form, which is valid and fixed
under re-formatting. -/
theorem mac_normalization_witness :
    formatMacAddress (str "aa-bb-cc-dd-ee-ff") = str "AA:BB:CC:DD:EE:FF" ∧
    isValidMacAddress (str "AA:BB:CC:DD:EE:FF") = true ∧
    formatMacAddress (str "AA:BB:CC:DD:EE:FF") = str "AA:BB:CC:DD:EE:FF" := by
  have h := mac_normalization (str "aa-bb-cc-dd-ee-ff") (by decide)
  refine ⟨?_, by decide, ?_⟩
  · rw [h.1]; decide
  · have h2 := mac_normalization (str "AA:BB:CC:DD:EE:FF") (by decide)
    rw [h2.1]; decide
